import Mathlib

/-!
Verification of the task scheduling and execution engine of
`src/base_classes.py` (classes `BaseTask`, `TaskScheduler`).

Modelling conventions:
* Python `datetime` instants are modelled as `Nat` ticks; a duration obtained
  by subtracting two instants is an `Int`.
* `float` fields that only ever hold the integral values written by the
  modelled code paths (`progress`, which is set to `0.0` and `100.0`) are
  modelled as `Nat`; the running average execution time, which is produced by
  a true division, is modelled as `ℚ`.
* Python dicts with string keys are modelled as association lists; a dict
  assignment overwrites the binding of an existing key in place.
* `threading.Lock` is non-reentrant: a thread that acquires a lock it already
  holds blocks forever.  Functions that can reach such an acquisition return
  `Option` values, with `none` modelling the deadlock (the call never
  returns).
* Thread scheduling itself is not modelled: the guarded work of a task is
  summarised by a `GuardOutcome` argument (what `_execute_with_timeout`
  resolved to), and the cancellation flag observed after the guarded call is
  an explicit `Bool` argument, since another thread may set it concurrently.
-/

namespace TaskEngine

/-- `TaskStatus` (src/base_classes.py:30-38). -/
inductive TaskStatus where
  | pending
  | running
  | completed
  | failed
  | timeout
  | cancelled
  | paused
deriving DecidableEq

/-- `TaskPriority` (src/base_classes.py:40-45). -/
inductive TaskPriority where
  | low
  | normal
  | high
  | critical
deriving DecidableEq

/-- The numeric `value` of a `TaskPriority` member. -/
def TaskPriority.val : TaskPriority → Nat
  | .low => 1
  | .normal => 2
  | .high => 3
  | .critical => 4

/-- An open string-keyed map (`Dict[str, Any]` payloads are modelled with
string values; only emptiness and equality of payloads matter here). -/
abbrev Payload := List (String × String)

/-- `TaskResult` (src/base_classes.py:47-58): value snapshot of a task. -/
structure TaskResult where
  task_id : String
  status : TaskStatus
  data : Payload
  error : Option String
  execution_time : Int
  start_time : Option Nat
  end_time : Option Nat
  progress : Nat
  metadata : Payload
deriving DecidableEq

/-- The mutable state of a `BaseTask` (src/base_classes.py:95-116).
`cancelled` and `paused` model the two `threading.Event` flags. -/
structure TaskState where
  task_id : String
  name : String
  priority : TaskPriority
  timeout : Nat
  retry_count : Nat
  dependencies : List String
  status : TaskStatus
  progress : Nat
  start_time : Option Nat
  end_time : Option Nat
  execution_time : Int
  error : Option String
  result_data : Payload
  metadata : Payload
  cancelled : Bool
  paused : Bool
deriving DecidableEq

/-- `BaseTask.__init__` (src/base_classes.py:77-123): a freshly constructed
task (the generated uuid is passed in as `tid`). -/
def newTask (tid nm : String) (priority : TaskPriority) (timeout retry_count : Nat)
    (dependencies : List String) : TaskState :=
  { task_id := tid
    name := nm
    priority := priority
    timeout := timeout
    retry_count := retry_count
    dependencies := dependencies
    status := .pending
    progress := 0
    start_time := none
    end_time := none
    execution_time := 0
    error := none
    result_data := []
    metadata := []
    cancelled := false
    paused := false }

/-- Acquisition of a Python `threading.Lock`, which is non-reentrant: `held`
says whether the acquiring thread already holds this very lock, in which case
the acquisition blocks forever (`none`). -/
def lockAcquire (held : Bool) : Option Bool :=
  if held then none else some true

/-- `BaseTask._set_status` (src/base_classes.py:244-251): re-acquires the
task lock, sets the status, overwrites the error only when one was passed,
then notifies the status-change observer (observers never touch the modelled
state; their exceptions are caught).  `held` records whether the caller
already holds the task lock at the `with self._lock` on line 246. -/
def set_status (held : Bool) (t : TaskState) (s : TaskStatus) (err : Option String) :
    Option TaskState :=
  match lockAcquire held with
  | none => none
  | some _ =>
      some { t with
              status := s
              error := match err with
                | some m => some m
                | none => t.error }

/-- `BaseTask._create_result` (src/base_classes.py:261-273): snapshot the
current task state into a `TaskResult`. -/
def create_result (t : TaskState) : TaskResult :=
  { task_id := t.task_id
    status := t.status
    data := t.result_data
    error := t.error
    execution_time := t.execution_time
    start_time := t.start_time
    end_time := t.end_time
    progress := t.progress
    metadata := t.metadata }

/-- The `finally` block of `BaseTask.run` (src/base_classes.py:186-190):
stamp the end time and, when a start time exists, the elapsed duration. -/
def stamp_end (t : TaskState) (endT : Nat) : TaskState :=
  let t1 := { t with end_time := some endT }
  match t1.start_time with
  | some s => { t1 with execution_time := (endT : Int) - (s : Int) }
  | none => t1

/-- What `BaseTask._execute_with_timeout` (src/base_classes.py:203-242)
resolved to, as observed by `run`: the guarded work returned a payload, the
guard raised `TimeoutError`, or the work raised an exception which the guard
re-raised.  (The guard's early return on an in-flight cancellation surfaces
as `ok []` together with the cancellation flag being set afterwards.) -/
inductive GuardOutcome where
  | ok (data : Payload)
  | timedOut
  | exn (msg : String)
deriving DecidableEq

/-- `BaseTask.run` (src/base_classes.py:135-201).

Arguments beyond the task state: `outcome` is what the guarded call resolved
to, `flagAfter` is the value of the cancellation flag re-read on line 165
(another thread may have set it while the work ran), and `startT`/`endT` are
the wall-clock ticks of `datetime.now()` on lines 148 and 188.

Returns `some (result, finalState)`, or `none` when the call never returns:
on the successful-completion path the source calls `_set_status` on line 173
while still inside the `with self._lock` block opened on line 170, and the
non-reentrant lock acquisition inside `_set_status` blocks forever.

Results returned from inside the `try` block (the two cancellation paths,
lines 159 and 167) are snapshotted *before* the `finally` block stamps the
end time, because Python evaluates the `return` expression first. -/
def run (t : TaskState) (outcome : GuardOutcome) (flagAfter : Bool)
    (startT endT : Nat) : Option (TaskResult × TaskState) :=
  match lockAcquire false with
  | none => none
  | some _ =>
    if t.status ≠ TaskStatus.pending then
      some (create_result t, t)
    else
      let t1 : TaskState :=
        { t with status := TaskStatus.running, start_time := some startT, progress := 0 }
      if t1.cancelled then
        match set_status false t1 TaskStatus.cancelled none with
        | none => none
        | some t2 => some (create_result t2, stamp_end t2 endT)
      else
        match outcome with
        | GuardOutcome.ok d =>
          if flagAfter then
            match set_status false t1 TaskStatus.cancelled none with
            | none => none
            | some t2 => some (create_result t2, stamp_end t2 endT)
          else
            let t2 := { t1 with result_data := d, progress := 100 }
            match set_status true t2 TaskStatus.completed none with
            | none => none
            | some t3 =>
              let t4 := stamp_end t3 endT
              some (create_result t4, t4)
        | GuardOutcome.timedOut =>
          match set_status false t1 TaskStatus.timeout
              (some "Tiempo de ejecución excedido") with
          | none => none
          | some t2 =>
            let t3 := stamp_end t2 endT
            some (create_result t3, t3)
        | GuardOutcome.exn msg =>
          match set_status false t1 TaskStatus.failed
              (some ("Error en tarea " ++ t1.name ++ ": " ++ msg)) with
          | none => none
          | some t2 =>
            let t3 := stamp_end t2 endT
            some (create_result t3, t3)

/-- `BaseTask.cancel` (src/base_classes.py:275-283): under the task lock, a
RUNNING task only gets its cancellation flag set; a PENDING task is routed
through `_set_status(CANCELLED)`, which re-acquires the already-held
non-reentrant lock, so the call never returns (`none`). -/
def cancel (t : TaskState) : Option TaskState :=
  match lockAcquire false with
  | none => none
  | some _ =>
    if t.status = TaskStatus.running then
      some { t with cancelled := true }
    else if t.status = TaskStatus.pending then
      match set_status true t TaskStatus.cancelled none with
      | none => none
      | some t2 => some t2
    else
      some t

/-- A concrete fresh task used by witnesses. -/
def exTask : TaskState := newTask "a" "t" TaskPriority.normal 30 0 []

/-- Lookup in a Python dict modelled as an association list. -/
def lookupA {α : Type} (m : List (String × α)) (k : String) : Option α :=
  match m.find? (fun p => p.1 == k) with
  | some p => some p.2
  | none => none

/-- Dict assignment `m[k] = v`: overwrites the binding of an existing key in
place, otherwise appends (Python dicts preserve insertion order). -/
def insertA {α : Type} (m : List (String × α)) (k : String) (v : α) :
    List (String × α) :=
  match m with
  | [] => [(k, v)]
  | p :: rest => if p.1 == k then (k, v) :: rest else p :: insertA rest k v

/-- Dict deletion `del m[k]`. -/
def eraseA {α : Type} (m : List (String × α)) (k : String) : List (String × α) :=
  match m with
  | [] => []
  | p :: rest => if p.1 == k then rest else p :: eraseA rest k

/-- The scheduler's `stats` dict (src/base_classes.py:389-395). -/
structure Stats where
  total_tasks : Nat
  completed_tasks : Nat
  failed_tasks : Nat
  cancelled_tasks : Nat
  average_execution_time : ℚ
deriving DecidableEq

/-- `stats` as initialised by `TaskScheduler.__init__`. -/
def initStats : Stats :=
  { total_tasks := 0
    completed_tasks := 0
    failed_tasks := 0
    cancelled_tasks := 0
    average_execution_time := 0 }

/-- An entry of a priority queue: `(priority_value, timestamp, task_id)`
(src/base_classes.py:473).  All entries of one queue share the same
priority value and are enqueued with the current wall-clock timestamp, so
the `PriorityQueue` pops them in insertion order; each queue is therefore
modelled as a FIFO list whose head is the next entry to pop. -/
abbrev QEntry := Nat × Nat × String

/-- The mutable state of a `TaskScheduler` (src/base_classes.py:357-398).
`running_tasks` holds the ids that have an in-flight `Future`. -/
structure SchedulerState where
  max_workers : Nat
  tasks : List (String × TaskState)
  running_tasks : List String
  completed_tasks : List (String × TaskResult)
  queue_critical : List QEntry
  queue_high : List QEntry
  queue_normal : List QEntry
  queue_low : List QEntry
  stats : Stats
deriving DecidableEq

/-- `self.task_queues[p]`. -/
def queueOf (s : SchedulerState) : TaskPriority → List QEntry
  | TaskPriority.critical => s.queue_critical
  | TaskPriority.high => s.queue_high
  | TaskPriority.normal => s.queue_normal
  | TaskPriority.low => s.queue_low

/-- Replace the queue of one priority level. -/
def setQueue (s : SchedulerState) (p : TaskPriority) (q : List QEntry) :
    SchedulerState :=
  match p with
  | TaskPriority.critical => { s with queue_critical := q }
  | TaskPriority.high => { s with queue_high := q }
  | TaskPriority.normal => { s with queue_normal := q }
  | TaskPriority.low => { s with queue_low := q }

/-- `TaskScheduler.add_task` (src/base_classes.py:450-477): under the
scheduler lock, raise `ValueError` on the first dependency id found in
neither `tasks` nor `completed_tasks` (the loop on lines 462-464 precedes
every mutation); otherwise store the task, bump the submitted counter, and
enqueue `(priority_value, now, task_id)` on the task's priority queue.
Returns the task id and the updated scheduler state, or the error. -/
def add_task (s : SchedulerState) (t : TaskState) (now : Nat) :
    Except String (String × SchedulerState) :=
  match t.dependencies.find? (fun dep =>
      (lookupA s.tasks dep).isNone && (lookupA s.completed_tasks dep).isNone) with
  | some dep => Except.error ("Dependencia no encontrada: " ++ dep)
  | none =>
    let s1 := { s with
        tasks := insertA s.tasks t.task_id t
        stats := { s.stats with total_tasks := s.stats.total_tasks + 1 } }
    Except.ok (t.task_id,
      setQueue s1 t.priority (queueOf s1 t.priority ++ [(t.priority.val, now, t.task_id)]))

/-- The scheduler state the caller observes after `add_task`: a raised
`ValueError` leaves the scheduler object untouched, because the validation
loop runs before any mutation. -/
def add_task_state (s : SchedulerState) (t : TaskState) (now : Nat) : SchedulerState :=
  match add_task s t now with
  | Except.ok p => p.2
  | Except.error _ => s

/-- `TaskScheduler._dependencies_completed` (src/base_classes.py:631-641):
every declared dependency must either be in `tasks` with status COMPLETED or
be present in `completed_tasks` — for the latter only presence is tested,
never the recorded result's status. -/
def dependencies_completed (tasks : List (String × TaskState))
    (completed : List (String × TaskResult)) (t : TaskState) : Bool :=
  t.dependencies.all (fun dep =>
    match lookupA tasks dep with
    | some dt => dt.status == TaskStatus.completed
    | none => (lookupA completed dep).isSome)

/-- The `while` loop of `TaskScheduler._process_priority_queue`
(src/base_classes.py:605-629), recursing on the queue contents.  Returns the
queue left behind, the updated `running_tasks`, and the ids submitted to the
worker pool (in submission order).  Per iteration: stop when the queue is
empty or the worker pool is full; pop the head entry; drop it and continue
when its id is no longer in `tasks`; when its dependencies are unmet,
re-enqueue `(pval, now, id)` and stop draining this queue; otherwise submit
the task and record its in-flight handle. -/
def process_queue_aux (tasks : List (String × TaskState))
    (completed : List (String × TaskResult)) (maxW pval now : Nat) :
    List QEntry → List String → List QEntry × List String × List String
  | [], running => ([], running, [])
  | e :: rest, running =>
    if running.length < maxW then
      match lookupA tasks e.2.2 with
      | none => process_queue_aux tasks completed maxW pval now rest running
      | some t =>
        if dependencies_completed tasks completed t then
          let res := process_queue_aux tasks completed maxW pval now rest
            (running ++ [e.2.2])
          (res.1, res.2.1, e.2.2 :: res.2.2)
        else
          (rest ++ [(pval, now, e.2.2)], running, [])
    else (e :: rest, running, [])

/-- `TaskScheduler._process_priority_queue` (src/base_classes.py:601-629):
drain one priority queue, dispatching eligible tasks to workers.  Returns
the updated scheduler state and the ids dispatched this cycle. -/
def process_priority_queue (s : SchedulerState) (p : TaskPriority) (now : Nat) :
    SchedulerState × List String :=
  let res := process_queue_aux s.tasks s.completed_tasks s.max_workers p.val now
    (queueOf s p) s.running_tasks
  (setQueue { s with running_tasks := res.2.1 } p res.1, res.2.2)

/-- `TaskScheduler.cancel_task` (src/base_classes.py:530-554): under the
scheduler lock, a task with an in-flight future whose `Future.cancel()`
succeeds (`futureCancelled`) is dropped from `running_tasks`; otherwise, a
task still present in `tasks` gets `task.cancel()` called on it — which
deadlocks when that task is PENDING (`cancel` never returns, and the thread
blocks while holding the scheduler lock).  An unknown id returns `False`.
Nothing is ever removed from any priority queue. -/
def cancel_task (s : SchedulerState) (tid : String) (futureCancelled : Bool) :
    Option (SchedulerState × Bool) :=
  if s.running_tasks.contains tid && futureCancelled then
    some ({ s with running_tasks := s.running_tasks.erase tid }, true)
  else
    match lookupA s.tasks tid with
    | some t =>
      match cancel t with
      | none => none
      | some t' => some ({ s with tasks := insertA s.tasks tid t' }, true)
    | none => some (s, false)

/-- `TaskScheduler.get_task_result` (src/base_classes.py:518-528). -/
def get_task_result (s : SchedulerState) (tid : String) : Option TaskResult :=
  lookupA s.completed_tasks tid

/-- The statistics update of `TaskScheduler._execute_task`
(src/base_classes.py:655-667): bump the counter matching the result status
(TIMEOUT and PAUSED results match no branch), then — whenever at least one
task has ever been counted completed — fold this result's execution time
into the running average, whatever its status. -/
def update_stats (st : Stats) (r : TaskResult) : Stats :=
  let st1 :=
    match r.status with
    | TaskStatus.completed => { st with completed_tasks := st.completed_tasks + 1 }
    | TaskStatus.failed => { st with failed_tasks := st.failed_tasks + 1 }
    | TaskStatus.cancelled => { st with cancelled_tasks := st.cancelled_tasks + 1 }
    | _ => st
  if st1.completed_tasks > 0 then
    { st1 with average_execution_time :=
        (st1.average_execution_time * ((st1.completed_tasks : ℚ) - 1) +
          (r.execution_time : ℚ)) / (st1.completed_tasks : ℚ) }
  else st1

/-- The bookkeeping `TaskScheduler._execute_task` performs after `task.run()`
returned `r` (src/base_classes.py:648-682): under the scheduler lock, move
the task from `tasks` to `completed_tasks`, update the statistics, and (in
the `finally` block) drop the id from `running_tasks`. -/
def execute_task_record (s : SchedulerState) (tid : String) (r : TaskResult) :
    SchedulerState :=
  { s with
      tasks := eraseA s.tasks tid
      completed_tasks := insertA s.completed_tasks tid r
      stats := update_stats s.stats r
      running_tasks := s.running_tasks.erase tid }

/-- Sort key used on `completed_tasks` entries: `x[1].end_time or
datetime.min` (src/base_classes.py:691, 747).  A missing end time sorts
before every stamped one. -/
def endKey : Option Nat → Nat
  | none => 0
  | some t => t + 1

/-- Descending end-time order on completed entries (`reverse=True`). -/
def completedGe (a b : String × TaskResult) : Bool :=
  endKey b.2.end_time ≤ endKey a.2.end_time

/-- Stable insertion into a list sorted by descending end time: the new
entry is placed before the first entry whose key does not exceed its own, so
entries with equal keys keep their original relative order. -/
def insertByEnd (x : String × TaskResult) :
    List (String × TaskResult) → List (String × TaskResult)
  | [] => [x]
  | y :: ys =>
    if endKey x.2.end_time < endKey y.2.end_time then y :: insertByEnd x ys
    else x :: y :: ys

/-- `sorted(completed.items(), key=end time, reverse=True)`: most recently
finished first.  Python's `sorted` is stable; it is modelled by a stable
insertion sort with the same ordering semantics. -/
def sortCompletedDesc (l : List (String × TaskResult)) :
    List (String × TaskResult) :=
  l.foldr insertByEnd []

/-- `TaskScheduler._cleanup_completed_tasks` (src/base_classes.py:684-698),
called from `_scheduler_loop` with the default cap `max_completed = 1000`:
when the completed map exceeds the cap, keep only the `max_completed` most
recently finished entries. -/
def cleanup_completed_tasks (max_completed : Nat)
    (completed : List (String × TaskResult)) : List (String × TaskResult) :=
  if completed.length > max_completed then
    (sortCompletedDesc completed).take max_completed
  else completed

/-- An entry of the dict returned by `TaskScheduler.get_all_tasks`: either a
`task.get_info()` snapshot of a pending/running task or a
`result.to_dict()` snapshot of a completed one. -/
inductive TaskView where
  | info (t : TaskState)
  | result (r : TaskResult)
deriving DecidableEq

/-- One dict assignment `all_tasks[id] = view`. -/
def dict_write (acc : List (String × TaskView)) (kv : String × TaskView) :
    List (String × TaskView) :=
  insertA acc kv.1 kv.2

/-- `TaskScheduler.get_all_tasks` (src/base_classes.py:735-754): under the
scheduler lock, write a `get_info()` entry for every task in `tasks`, then
write `to_dict()` entries for the 100 most recently finished entries of
`completed_tasks` in descending end-time order. -/
def get_all_tasks (s : SchedulerState) : List (String × TaskView) :=
  let base := (s.tasks.map (fun p => (p.1, TaskView.info p.2))).foldl dict_write []
  (((sortCompletedDesc s.completed_tasks).take 100).map
      (fun p => (p.1, TaskView.result p.2))).foldl dict_write base

/-- The spec's hypothetical sum of the execution times of a list of results,
used to state what an arithmetic mean of completed tasks would be. -/
def sum_execution_times (rs : List TaskResult) : ℚ :=
  (rs.map (fun r => (r.execution_time : ℚ))).sum

/-- A freshly initialised scheduler with 4 workers and nothing submitted. -/
def exSchedEmpty : SchedulerState :=
  { max_workers := 4
    tasks := []
    running_tasks := []
    completed_tasks := []
    queue_critical := []
    queue_high := []
    queue_normal := []
    queue_low := []
    stats := initStats }

/-- A task declaring the (unsubmitted) dependency id `x`. -/
def exDepTask : TaskState := newTask "b" "u" TaskPriority.normal 30 0 ["x"]

/-- A scheduler holding the single PENDING task `a`, enqueued on the NORMAL
queue and not yet dispatched. -/
def exSched : SchedulerState :=
  { exSchedEmpty with tasks := [("a", exTask)], queue_normal := [(2, 0, "a")] }

/-- A COMPLETED result with execution time 10. -/
def exResultCompleted : TaskResult :=
  { task_id := "a"
    status := TaskStatus.completed
    data := []
    error := none
    execution_time := 10
    start_time := some 0
    end_time := some 10
    progress := 100
    metadata := [] }

/-- A FAILED result with execution time 0. -/
def exResultFailed : TaskResult :=
  { task_id := "b"
    status := TaskStatus.failed
    data := []
    error := some "e"
    execution_time := 0
    start_time := some 0
    end_time := some 0
    progress := 0
    metadata := [] }

/-- A scheduler holding the single task `b`, which declares the missing
dependency `x`, enqueued on the NORMAL queue. -/
def exSchedBlocked : SchedulerState :=
  { exSchedEmpty with tasks := [("b", exDepTask)], queue_normal := [(2, 0, "b")] }

/-- The terminal result of a task `x` that ended FAILED, as `_execute_task`
records it in `completed_tasks`. -/
def exResultDepFailed : TaskResult :=
  { task_id := "x"
    status := TaskStatus.failed
    data := []
    error := some "e"
    execution_time := 1
    start_time := some 0
    end_time := some 1
    progress := 0
    metadata := [] }

/-- A scheduler in which the task `b` (declaring the dependency `x`) is
queued while its dependency `x` has already terminated FAILED and had its
result moved into `completed_tasks`. -/
def exSchedFailedDep : SchedulerState :=
  { exSchedEmpty with
      tasks := [("b", exDepTask)]
      completed_tasks := [("x", exResultDepFailed)]
      queue_normal := [(2, 0, "b")] }

/-- A scheduler with one pending task and two completed results. -/
def exSchedMixed : SchedulerState :=
  { exSchedEmpty with
      tasks := [("a", exTask)]
      completed_tasks := [("c", exResultCompleted), ("d", exResultFailed)] }

end TaskEngine

namespace TaskEngine

lemma set_status_held (t : TaskState) (s : TaskStatus) (err : Option String) :
    set_status true t s err = none := rfl

lemma set_status_free (t : TaskState) (s : TaskStatus) (err : Option String) :
    set_status false t s err =
      some { t with
              status := s
              error := match err with
                | some m => some m
                | none => t.error } := rfl

/-- Claim C1: the claim asserts that when the guarded work returns a payload
with no error, timeout, and no cancellation, `run` stores the payload,
sets progress to 100, transitions to COMPLETED and returns a COMPLETED
`TaskResult`.  On the code this path never returns: after storing the payload
and progress inside `with self._lock` (line 170), `run` calls `_set_status`
(line 173) which re-acquires the same non-reentrant lock and blocks forever.
This theorem evaluates the code on that path: it yields `none` (deadlock), so
the COMPLETED transition, the end-time stamp and the return never happen. -/
theorem run_success_path_deadlocks (t : TaskState) (d : Payload) (startT endT : Nat)
    (hp : t.status = TaskStatus.pending) (hc : t.cancelled = false) :
    run t (GuardOutcome.ok d) false startT endT = none := by
  simp [run, lockAcquire, hp, hc, set_status_held]

/-- Witness for C1: the deadlocked success path on a concrete fresh task. -/
theorem run_success_path_deadlocks_witness :
    run exTask (GuardOutcome.ok [("k", "v")]) false 0 5 = none :=
  run_success_path_deadlocks exTask [("k", "v")] 0 5 rfl rfl

/-- Claim C2: the claim asserts `cancel()` on a RUNNING task only sets the
cancellation flag, and on a PENDING task transitions straight to CANCELLED,
returning in both cases.  On the code the RUNNING half holds, but on a
PENDING task `cancel` calls `_set_status(CANCELLED)` (line 282) while already
holding the task's non-reentrant lock (acquired on line 277), so the call
deadlocks (`none`) and the status never becomes CANCELLED. -/
theorem cancel_pending_deadlocks_running_sets_flag (t : TaskState) :
    (t.status = TaskStatus.running → cancel t = some { t with cancelled := true }) ∧
    (t.status = TaskStatus.pending → cancel t = none) := by
  constructor
  · intro h
    simp [cancel, lockAcquire, h]
  · intro h
    simp [cancel, lockAcquire, h, set_status_held]

/-- Witness for C2: a concrete running task gets its flag set; a concrete
pending task deadlocks. -/
theorem cancel_pending_deadlocks_running_sets_flag_witness :
    cancel { exTask with status := TaskStatus.running } =
      some { exTask with status := TaskStatus.running, cancelled := true } ∧
    cancel exTask = none :=
  ⟨(cancel_pending_deadlocks_running_sets_flag
      { exTask with status := TaskStatus.running }).1 rfl,
   (cancel_pending_deadlocks_running_sets_flag exTask).2 rfl⟩

/-- Claim C9: a task whose cancellation flag is already set when `run` is
invoked terminates with status CANCELLED: `run` returns a `TaskResult` with
status CANCELLED, the final task status is CANCELLED, and the guarded work is
never consulted — the returned value is independent of the guard outcome and
of the later flag reading (lines 156-159 return before line 162 executes). -/
theorem run_cancelled_before_start (t : TaskState) (o o' : GuardOutcome)
    (f f' : Bool) (startT endT : Nat)
    (hp : t.status = TaskStatus.pending) (hc : t.cancelled = true) :
    run t o f startT endT = run t o' f' startT endT ∧
    ∃ r t', run t o f startT endT = some (r, t') ∧
      r.status = TaskStatus.cancelled ∧ t'.status = TaskStatus.cancelled := by
  refine ⟨?_, ?_⟩
  · simp [run, lockAcquire, hp, hc]
  · have h : run t o f startT endT =
        some (create_result { t with status := TaskStatus.cancelled, start_time := some startT, progress := 0 },
          stamp_end { t with status := TaskStatus.cancelled, start_time := some startT, progress := 0 } endT) := by
      simp [run, lockAcquire, hp, hc, set_status]
    exact ⟨_, _, h, by simp [create_result], by simp [stamp_end]⟩

/-- Witness for C9: a concrete pre-cancelled task runs to CANCELLED with the
guard outcome left unread. -/
theorem run_cancelled_before_start_witness :
    run { exTask with cancelled := true } (GuardOutcome.ok [("k", "v")]) false 0 5 =
      run { exTask with cancelled := true } GuardOutcome.timedOut true 0 5 ∧
    ∃ r t', run { exTask with cancelled := true } (GuardOutcome.ok [("k", "v")]) false 0 5 =
        some (r, t') ∧
      r.status = TaskStatus.cancelled ∧ t'.status = TaskStatus.cancelled :=
  run_cancelled_before_start { exTask with cancelled := true }
    (GuardOutcome.ok [("k", "v")]) GuardOutcome.timedOut false true 0 5 rfl rfl

/-- Claim C3 counterexample: the claim asserts that a second `run` returns a
`TaskResult` field-for-field equal to the first.  Concrete refutation: on a
task whose cancellation flag is set, the first `run` returns on line 159
inside the `try` block, so its result is snapshotted before the `finally`
block stamps the end time — its `end_time` is `none` — while the second
`run` (the no-op branch, line 145) snapshots the task state after that
stamping and reports `end_time = some 5`.  The two results differ. -/
theorem run_twice_counterexample :
    (run { exTask with cancelled := true } (GuardOutcome.ok []) false 3 5).map
        (fun p => p.1.end_time) = some none ∧
    ((run { exTask with cancelled := true } (GuardOutcome.ok []) false 3 5).bind
        (fun p => run p.2 (GuardOutcome.ok []) false 7 9)).map
        (fun p => p.1.end_time) = some (some 5) := by
  decide

/-- Claim C3 (amended): whenever a first call to `run` returned a
`TaskResult`, a second call is a no-op: it leaves the task state unchanged
and returns the snapshot of that state, which agrees with the first result on
task id, status, data, error, progress, metadata and start time — and is
field-for-field equal to the first result when the first call ended in
TIMEOUT or FAILED.  (On the cancellation paths the first result was
snapshotted before the `finally` block stamped the end time, so its
`end_time`/`execution_time` may differ from the second result's.) -/
theorem run_twice_noop (t : TaskState) (o o' : GuardOutcome) (f f' : Bool)
    (tS tE tS' tE' : Nat) (r1 : TaskResult) (t1 : TaskState)
    (h : run t o f tS tE = some (r1, t1)) :
    run t1 o' f' tS' tE' = some (create_result t1, t1) ∧
    (create_result t1).task_id = r1.task_id ∧
    (create_result t1).status = r1.status ∧
    (create_result t1).data = r1.data ∧
    (create_result t1).error = r1.error ∧
    (create_result t1).progress = r1.progress ∧
    (create_result t1).metadata = r1.metadata ∧
    (create_result t1).start_time = r1.start_time ∧
    ((r1.status = TaskStatus.timeout ∨ r1.status = TaskStatus.failed) →
      create_result t1 = r1) := by
  by_cases hst : t.status = TaskStatus.pending
  · by_cases hc : t.cancelled
    · simp [run, lockAcquire, hst, hc, set_status] at h
      obtain ⟨hr, ht⟩ := h
      subst hr ht
      refine ⟨by simp [run, lockAcquire, stamp_end, create_result], ?_⟩
      simp [create_result, stamp_end]
    · cases o with
      | ok d =>
        by_cases hf : f
        · simp [run, lockAcquire, hst, hc, hf, set_status] at h
          obtain ⟨hr, ht⟩ := h
          subst hr ht
          refine ⟨by simp [run, lockAcquire, stamp_end, create_result], ?_⟩
          simp [create_result, stamp_end]
        · simp [run, lockAcquire, hst, hc, hf, set_status] at h
      | timedOut =>
        simp [run, lockAcquire, hst, hc, set_status] at h
        obtain ⟨hr, ht⟩ := h
        subst hr ht
        refine ⟨by simp [run, lockAcquire, stamp_end, create_result], ?_⟩
        simp [create_result, stamp_end]
      | exn msg =>
        simp [run, lockAcquire, hst, hc, set_status] at h
        obtain ⟨hr, ht⟩ := h
        subst hr ht
        refine ⟨by simp [run, lockAcquire, stamp_end, create_result], ?_⟩
        simp [create_result, stamp_end]
  · simp [run, lockAcquire, hst] at h
    obtain ⟨hr, ht⟩ := h
    subst hr ht
    exact ⟨by simp [run, lockAcquire, hst], rfl, rfl, rfl, rfl, rfl, rfl, rfl,
      fun _ => rfl⟩

/-- The state `exTask` reaches after a first `run` whose guarded work raised
the exception message `boom` (start tick 3, end tick 5). -/
def exFailedTask : TaskState :=
  { exTask with
      status := TaskStatus.failed
      error := some "Error en tarea t: boom"
      start_time := some 3
      end_time := some 5
      execution_time := 2 }

/-- Witness for the amended C3: a first run that FAILED, then a second run
returning the identical snapshot. -/
theorem run_twice_noop_witness :
    run exFailedTask (GuardOutcome.ok []) false 7 9 =
      some (create_result exFailedTask, exFailedTask) :=
  (run_twice_noop exTask (GuardOutcome.exn "boom") (GuardOutcome.ok []) false false
      3 5 7 9 (create_result exFailedTask) exFailedTask (by decide)).1

/-- Claim C4: submitting a task one of whose dependency ids is present in
neither `tasks` nor `completed_tasks` fails with a descriptive `ValueError`
and leaves the scheduler state unchanged — in particular the task is not
stored, nothing is enqueued and the submitted counter is not incremented. -/
theorem add_task_missing_dependency (s : SchedulerState) (t : TaskState)
    (now : Nat) (d : String) (hd : d ∈ t.dependencies)
    (h1 : lookupA s.tasks d = none) (h2 : lookupA s.completed_tasks d = none) :
    (∃ msg, add_task s t now = Except.error msg) ∧ add_task_state s t now = s := by
  have hfind : (t.dependencies.find? (fun dep =>
      (lookupA s.tasks dep).isNone && (lookupA s.completed_tasks dep).isNone)).isSome := by
    rw [List.find?_isSome]
    exact ⟨d, hd, by simp [h1, h2]⟩
  obtain ⟨dep, hdep⟩ := Option.isSome_iff_exists.mp hfind
  refine ⟨⟨"Dependencia no encontrada: " ++ dep, ?_⟩, ?_⟩
  · simp [add_task, hdep]
  · simp [add_task_state, add_task, hdep]

/-- Witness for C4: submitting a task depending on the unknown id `x` to a
fresh scheduler errors out and changes nothing. -/
theorem add_task_missing_dependency_witness :
    (∃ msg, add_task exSchedEmpty exDepTask 1 = Except.error msg) ∧
    add_task_state exSchedEmpty exDepTask 1 = exSchedEmpty :=
  add_task_missing_dependency exSchedEmpty exDepTask 1 "x" (by decide) (by decide)
    (by decide)

/-- Claim C6: the claim asserts `cancel_task` on a PENDING task removes it
from its priority queue so that the dispatch loop never submits it.  On the
code, concretely: scheduler `exSched` holds the PENDING task `a` on its
NORMAL queue; `cancel_task` reaches `task.cancel()` (line 551), which
deadlocks re-acquiring the task's non-reentrant lock while also holding the
scheduler lock (`none`); and since `cancel_task` never touches any queue,
the dispatch loop run on this state still submits `a` to a worker. -/
theorem cancel_task_pending_deadlocks :
    cancel_task exSched "a" false = none ∧
    (process_priority_queue exSched TaskPriority.normal 9).2 = ["a"] := by
  decide

/-- Claim C8 counterexample: the claim asserts the running average equals
the arithmetic mean of the execution times of the tasks counted completed,
with results of other statuses leaving it unchanged.  Concrete refutation:
record a COMPLETED result with execution time 10, then a FAILED one with
execution time 0.  The completed counter stays at 1 and the mean of
completed execution times is 10, yet the average becomes 0, because the
update on lines 663-667 runs for every result once `completed_tasks > 0`. -/
theorem average_execution_time_counterexample :
    (execute_task_record (execute_task_record exSchedEmpty "a" exResultCompleted)
        "b" exResultFailed).stats.completed_tasks = 1 ∧
    exResultCompleted.execution_time = 10 ∧
    (execute_task_record (execute_task_record exSchedEmpty "a" exResultCompleted)
        "b" exResultFailed).stats.average_execution_time = 0 := by
  refine ⟨by decide, by decide, ?_⟩
  norm_num [execute_task_record, update_stats, exResultCompleted, exResultFailed,
    exSchedEmpty, initStats]

/-- Claim C8 (amended): the counters are updated by result status, and once
at least one task has been counted completed the running average is updated
by the incremental-mean formula on every handled result — so it equals the
arithmetic mean of the completed execution times when every result handled
so far was COMPLETED (results of other statuses do alter it, as the
counterexample shows). -/
theorem average_tracks_all_completed_mean (rs : List TaskResult)
    (h : ∀ r ∈ rs, r.status = TaskStatus.completed) :
    (rs.foldl update_stats initStats).completed_tasks = rs.length ∧
    (rs.foldl update_stats initStats).average_execution_time * (rs.length : ℚ) =
      sum_execution_times rs ∧
    (rs ≠ [] → (rs.foldl update_stats initStats).average_execution_time =
      sum_execution_times rs / (rs.length : ℚ)) := by
  have key : ∀ (rs : List TaskResult) (st : Stats),
      (∀ r ∈ rs, r.status = TaskStatus.completed) →
      (rs.foldl update_stats st).completed_tasks = st.completed_tasks + rs.length ∧
      (rs.foldl update_stats st).average_execution_time *
          (((rs.foldl update_stats st).completed_tasks : ℚ)) =
        st.average_execution_time * (st.completed_tasks : ℚ) +
          sum_execution_times rs := by
    intro rs
    induction rs with
    | nil => intro st _; simp [sum_execution_times]
    | cons r rest ih =>
      intro st hall
      have hr : r.status = TaskStatus.completed := hall r (by simp)
      have hrest : ∀ x ∈ rest, x.status = TaskStatus.completed :=
        fun x hx => hall x (by simp [hx])
      have hupd : update_stats st r =
          { st with
              completed_tasks := st.completed_tasks + 1
              average_execution_time :=
                (st.average_execution_time * (((st.completed_tasks + 1 : Nat) : ℚ) - 1) +
                  (r.execution_time : ℚ)) / ((st.completed_tasks + 1 : Nat) : ℚ) } := by
        simp [update_stats, hr]
      obtain ⟨ih1, ih2⟩ := ih (update_stats st r) hrest
      rw [List.foldl_cons]
      constructor
      · rw [ih1, hupd]
        simp only [List.length_cons]
        omega
      · rw [ih2, hupd]
        have hnz : (((st.completed_tasks + 1 : Nat)) : ℚ) ≠ 0 := by
          exact_mod_cast Nat.succ_ne_zero st.completed_tasks
        simp only [sum_execution_times, List.map_cons, List.sum_cons]
        push_cast
        field_simp
        ring
  obtain ⟨k1, k2⟩ := key rs initStats h
  have c1 : (rs.foldl update_stats initStats).completed_tasks = rs.length := by
    simpa [initStats] using k1
  have c2 : (rs.foldl update_stats initStats).average_execution_time *
      (rs.length : ℚ) = sum_execution_times rs := by
    rw [c1] at k2
    simpa [initStats] using k2
  refine ⟨c1, c2, fun hne => ?_⟩
  have hlen : (rs.length : ℚ) ≠ 0 := by
    exact_mod_cast (List.length_pos.mpr hne).ne'
  rw [eq_div_iff hlen]
  exact c2

/-- Witness for the amended C8: one completed result of execution time 10. -/
theorem average_tracks_all_completed_mean_witness :
    (∀ r ∈ [exResultCompleted], r.status = TaskStatus.completed) ∧
    (([exResultCompleted].foldl update_stats initStats).completed_tasks =
        [exResultCompleted].length ∧
      ([exResultCompleted].foldl update_stats initStats).average_execution_time *
          (([exResultCompleted].length : ℚ)) =
        sum_execution_times [exResultCompleted] ∧
      ([exResultCompleted] ≠ [] →
        ([exResultCompleted].foldl update_stats initStats).average_execution_time =
          sum_execution_times [exResultCompleted] /
            (([exResultCompleted].length : ℚ)))) :=
  ⟨by decide, average_tracks_all_completed_mean [exResultCompleted] (by decide)⟩

lemma queueOf_setQueue (s : SchedulerState) (p : TaskPriority) (q : List QEntry) :
    queueOf (setQueue s p q) p = q := by
  cases p <;> rfl

/-- Every id the queue-draining loop dispatches belongs to a stored task all
of whose dependencies are completed. -/
lemma process_queue_aux_dispatch_sound (tasks : List (String × TaskState))
    (completed : List (String × TaskResult)) (maxW pval now : Nat) :
    ∀ (q : List QEntry) (running : List String) (id : String),
      id ∈ (process_queue_aux tasks completed maxW pval now q running).2.2 →
      ∃ t, lookupA tasks id = some t ∧
        dependencies_completed tasks completed t = true := by
  intro q
  induction q with
  | nil =>
    intro running id h
    simp [process_queue_aux] at h
  | cons e rest ih =>
    intro running id h
    by_cases hcap : running.length < maxW
    · cases hl : lookupA tasks e.2.2 with
      | none =>
        have haux : process_queue_aux tasks completed maxW pval now (e :: rest) running =
            process_queue_aux tasks completed maxW pval now rest running := by
          simp [process_queue_aux, hcap, hl]
        rw [haux] at h
        exact ih running id h
      | some t =>
        by_cases hdep : dependencies_completed tasks completed t = true
        · have haux : (process_queue_aux tasks completed maxW pval now (e :: rest) running).2.2 =
              e.2.2 :: (process_queue_aux tasks completed maxW pval now rest
                (running ++ [e.2.2])).2.2 := by
            simp [process_queue_aux, hcap, hl, hdep]
          rw [haux] at h
          rcases List.mem_cons.mp h with heq | hmem
          · exact ⟨t, by rw [heq]; exact hl, hdep⟩
          · exact ih _ id hmem
        · have haux : (process_queue_aux tasks completed maxW pval now (e :: rest) running).2.2 =
              [] := by
            simp [process_queue_aux, hcap, hl, hdep]
          rw [haux] at h
          simp at h
    · have haux : (process_queue_aux tasks completed maxW pval now (e :: rest) running).2.2 =
          [] := by
        simp [process_queue_aux, hcap]
      rw [haux] at h
      simp at h

/-- Every queued entry whose id still names a stored task is either
dispatched by the loop or still present on the queue it leaves behind. -/
lemma process_queue_aux_retained (tasks : List (String × TaskState))
    (completed : List (String × TaskResult)) (maxW pval now : Nat) :
    ∀ (q : List QEntry) (running : List String) (en : QEntry),
      en ∈ q → (lookupA tasks en.2.2).isSome →
      en.2.2 ∈ (process_queue_aux tasks completed maxW pval now q running).2.2 ∨
      en.2.2 ∈ (process_queue_aux tasks completed maxW pval now q running).1.map
        (fun x => x.2.2) := by
  intro q
  induction q with
  | nil =>
    intro running en hen _
    simp at hen
  | cons e rest ih =>
    intro running en hen hsome
    by_cases hcap : running.length < maxW
    · cases hl : lookupA tasks e.2.2 with
      | none =>
        have hen' : en ∈ rest := by
          rcases List.mem_cons.mp hen with heq | hmem
          · exfalso
            rw [heq, hl] at hsome
            simp at hsome
          · exact hmem
        have haux : process_queue_aux tasks completed maxW pval now (e :: rest) running =
            process_queue_aux tasks completed maxW pval now rest running := by
          simp [process_queue_aux, hcap, hl]
        rw [haux]
        exact ih running en hen' hsome
      | some t =>
        by_cases hdep : dependencies_completed tasks completed t = true
        · have haux : process_queue_aux tasks completed maxW pval now (e :: rest) running =
              ((process_queue_aux tasks completed maxW pval now rest (running ++ [e.2.2])).1,
               (process_queue_aux tasks completed maxW pval now rest (running ++ [e.2.2])).2.1,
               e.2.2 :: (process_queue_aux tasks completed maxW pval now rest
                 (running ++ [e.2.2])).2.2) := by
            simp [process_queue_aux, hcap, hl, hdep]
          rw [haux]
          rcases List.mem_cons.mp hen with heq | hmem
          · left
            rw [heq]
            exact List.mem_cons_self _ _
          · rcases ih (running ++ [e.2.2]) en hmem hsome with h1 | h2
            · left
              exact List.mem_cons_of_mem _ h1
            · right
              exact h2
        · have haux : process_queue_aux tasks completed maxW pval now (e :: rest) running =
              (rest ++ [(pval, now, e.2.2)], running, []) := by
            simp [process_queue_aux, hcap, hl, hdep]
          rw [haux]
          right
          rcases List.mem_cons.mp hen with heq | hmem
          · rw [heq]
            simp
          · simp only [List.map_append, List.mem_append]
            exact Or.inl (List.mem_map_of_mem _ hmem)
    · have haux : process_queue_aux tasks completed maxW pval now (e :: rest) running =
          (e :: rest, running, []) := by
        simp [process_queue_aux, hcap]
      rw [haux]
      right
      exact List.mem_map_of_mem _ hen

/-- Claim C5 counterexample: the claim asserts that a task is never
dispatched while one of its declared dependencies does not have status
COMPLETED.  Concrete refutation on a reachable state: the dependency `x` of
the queued task `b` terminated FAILED and `_execute_task` moved its FAILED
result into `completed_tasks`; `_dependencies_completed` (lines 638-639)
tests only presence in `completed_tasks`, never the recorded status, so the
dispatch loop submits `b` to a worker even though `x` is not COMPLETED. -/
theorem failed_dependency_dispatched_counterexample :
    (lookupA exSchedFailedDep.completed_tasks "x").map (fun r => r.status) =
      some TaskStatus.failed ∧
    "x" ∈ exDepTask.dependencies ∧
    (process_priority_queue exSchedFailedDep TaskPriority.normal 9).2 = ["b"] := by
  decide

/-- Claim C5 (amended): a task one of whose declared dependencies either is
still in `tasks` with a status other than COMPLETED, or is present in
neither `tasks` nor `completed_tasks`, is never submitted to a worker by the
dispatch loop; any queue entry carrying its id is still on the task's
priority queue after the loop runs (the loop re-enqueues it instead of
dispatching).  A dependency whose terminal result was moved into
`completed_tasks` counts as satisfied whatever that result's status, as the
counterexample shows. -/
theorem unmet_dependency_never_dispatched (s : SchedulerState) (p : TaskPriority)
    (now : Nat) (id : String) (t : TaskState) (dep : String)
    (hl : lookupA s.tasks id = some t)
    (hdep : dep ∈ t.dependencies)
    (hblocked : (∃ dt, lookupA s.tasks dep = some dt ∧
        dt.status ≠ TaskStatus.completed) ∨
      (lookupA s.tasks dep = none ∧ lookupA s.completed_tasks dep = none)) :
    id ∉ (process_priority_queue s p now).2 ∧
    ∀ en : QEntry, en ∈ queueOf s p → en.2.2 = id →
      id ∈ (queueOf (process_priority_queue s p now).1 p).map (fun x => x.2.2) := by
  have hfalse : dependencies_completed s.tasks s.completed_tasks t = false := by
    rw [Bool.eq_false_iff]
    intro hall
    rw [dependencies_completed, List.all_eq_true] at hall
    have hthis := hall dep hdep
    rcases hblocked with ⟨dt, hdt, hne⟩ | ⟨h1, h2⟩
    · simp only [hdt] at hthis
      exact hne (by simpa using hthis)
    · simp only [h1, h2] at hthis
      simp at hthis
  have hnd : id ∉ (process_queue_aux s.tasks s.completed_tasks s.max_workers p.val now
      (queueOf s p) s.running_tasks).2.2 := by
    intro hmem
    obtain ⟨t', hl', hdep'⟩ :=
      process_queue_aux_dispatch_sound s.tasks s.completed_tasks s.max_workers p.val now
        (queueOf s p) s.running_tasks id hmem
    rw [hl] at hl'
    obtain rfl : t = t' := Option.some.inj hl'
    rw [hdep'] at hfalse
    cases hfalse
  constructor
  · simpa [process_priority_queue] using hnd
  · intro en hen heq
    have hsome : (lookupA s.tasks en.2.2).isSome := by
      rw [heq, hl]
      rfl
    rcases process_queue_aux_retained s.tasks s.completed_tasks s.max_workers p.val now
        (queueOf s p) s.running_tasks en hen hsome with h1 | h2
    · exfalso
      rw [heq] at h1
      exact hnd h1
    · rw [heq] at h2
      simpa [process_priority_queue, queueOf_setQueue] using h2

/-- Witness for the amended C5: the task `b`, whose dependency `x` is in
neither map, is not dispatched and remains queued. -/
theorem unmet_dependency_never_dispatched_witness :
    "b" ∉ (process_priority_queue exSchedBlocked TaskPriority.normal 9).2 ∧
    ∀ en : QEntry, en ∈ queueOf exSchedBlocked TaskPriority.normal → en.2.2 = "b" →
      "b" ∈ (queueOf (process_priority_queue exSchedBlocked TaskPriority.normal 9).1
        TaskPriority.normal).map (fun x => x.2.2) :=
  unmet_dependency_never_dispatched exSchedBlocked TaskPriority.normal 9 "b" exDepTask
    "x" (by decide) (by decide) (Or.inr (by decide))

lemma completedGe_trans :
    ∀ a b c : String × TaskResult, completedGe a b = true → completedGe b c = true →
      completedGe a c = true := by
  intro a b c h1 h2
  simp only [completedGe, decide_eq_true_eq] at *
  omega

lemma completedGe_total :
    ∀ a b : String × TaskResult, (completedGe a b || completedGe b a) = true := by
  intro a b
  simp only [completedGe, Bool.or_eq_true, decide_eq_true_eq]
  omega

lemma insertByEnd_perm (x : String × TaskResult) (l : List (String × TaskResult)) :
    (insertByEnd x l).Perm (x :: l) := by
  induction l with
  | nil => exact List.Perm.refl _
  | cons y ys ih =>
    by_cases hlt : endKey x.2.end_time < endKey y.2.end_time
    · rw [insertByEnd, if_pos hlt]
      exact (ih.cons y).trans (List.Perm.swap x y ys)
    · rw [insertByEnd, if_neg hlt]

lemma insertByEnd_pairwise (x : String × TaskResult) (l : List (String × TaskResult))
    (h : List.Pairwise (fun a b => completedGe a b = true) l) :
    List.Pairwise (fun a b => completedGe a b = true) (insertByEnd x l) := by
  induction l with
  | nil => simp [insertByEnd]
  | cons y ys ih =>
    rcases List.pairwise_cons.mp h with ⟨hy, hys⟩
    by_cases hlt : endKey x.2.end_time < endKey y.2.end_time
    · rw [insertByEnd, if_pos hlt]
      refine List.pairwise_cons.mpr ⟨?_, ih hys⟩
      intro z hz
      rcases List.mem_cons.mp ((insertByEnd_perm x ys).subset hz) with heq | hmem
      · rw [heq]
        simp only [completedGe, decide_eq_true_eq]
        omega
      · exact hy z hmem
    · rw [insertByEnd, if_neg hlt]
      refine List.pairwise_cons.mpr ⟨?_, h⟩
      intro z hz
      rcases List.mem_cons.mp hz with heq | hmem
      · rw [heq]
        simp only [completedGe, decide_eq_true_eq]
        omega
      · have hz' := hy z hmem
        simp only [completedGe, decide_eq_true_eq] at *
        omega

lemma sortCompletedDesc_pairwise (l : List (String × TaskResult)) :
    List.Pairwise (fun a b => completedGe a b = true) (sortCompletedDesc l) := by
  induction l with
  | nil => simp [sortCompletedDesc]
  | cons x xs ih => exact insertByEnd_pairwise x _ ih

lemma sortCompletedDesc_perm (l : List (String × TaskResult)) :
    (sortCompletedDesc l).Perm l := by
  induction l with
  | nil => exact List.Perm.refl _
  | cons x xs ih => exact (insertByEnd_perm x _).trans (ih.cons x)

/-- Claim C7: after a cleanup pass with the configured default cap of 1000,
the completed map never exceeds 1000 entries; and whenever the cleanup (with
any cap) evicts an entry while keeping another, the evicted entry's end time
is at most the kept entry's — eviction always removes the oldest-by-end-time
entries and keeps the most recently finished. -/
theorem cleanup_cap_and_eviction_order (l0 : List (String × TaskResult))
    (m : Nat) (l : List (String × TaskResult)) (e k : String × TaskResult)
    (he : e ∈ l) (hne : e ∉ cleanup_completed_tasks m l)
    (hk : k ∈ cleanup_completed_tasks m l) :
    (cleanup_completed_tasks 1000 l0).length ≤ 1000 ∧
    endKey e.2.end_time ≤ endKey k.2.end_time := by
  constructor
  · rw [cleanup_completed_tasks]
    split
    · rw [List.length_take]
      omega
    · omega
  · by_cases hlen : l.length > m
    · rw [cleanup_completed_tasks, if_pos hlen] at hne hk
      have hsorted := sortCompletedDesc_pairwise l
      have he' : e ∈ sortCompletedDesc l := (sortCompletedDesc_perm l).symm.subset he
      rw [← List.take_append_drop m (sortCompletedDesc l)] at he' hsorted
      rcases List.mem_append.mp he' with h1 | h2
      · exact absurd h1 hne
      · have hge := (List.pairwise_append.mp hsorted).2.2 k hk e h2
        simpa [completedGe] using hge
    · rw [cleanup_completed_tasks, if_neg hlen] at hne
      exact absurd he hne

/-- Witness for C7: with cap 1, the entry whose end time is 0 is evicted in
favour of the entry whose end time is 10. -/
theorem cleanup_cap_and_eviction_order_witness :
    ("d", exResultFailed) ∈ [("c", exResultCompleted), ("d", exResultFailed)] ∧
    ("d", exResultFailed) ∉
      cleanup_completed_tasks 1 [("c", exResultCompleted), ("d", exResultFailed)] ∧
    ("c", exResultCompleted) ∈
      cleanup_completed_tasks 1 [("c", exResultCompleted), ("d", exResultFailed)] ∧
    ((cleanup_completed_tasks 1000 ([] : List (String × TaskResult))).length ≤ 1000 ∧
      endKey (("d", exResultFailed)).2.end_time ≤
        endKey (("c", exResultCompleted)).2.end_time) :=
  ⟨by decide, by decide, by decide,
   cleanup_cap_and_eviction_order [] 1 [("c", exResultCompleted), ("d", exResultFailed)]
     ("d", exResultFailed) ("c", exResultCompleted) (by decide) (by decide) (by decide)⟩

lemma insertA_of_not_mem {α : Type} (m : List (String × α)) (k : String) (v : α)
    (h : k ∉ m.map Prod.fst) : insertA m k v = m ++ [(k, v)] := by
  induction m with
  | nil => rfl
  | cons p rest ih =>
    simp only [List.map_cons, List.mem_cons] at h
    push_neg at h
    obtain ⟨h1, h2⟩ := h
    have hne : ¬(p.1 == k) = true := by
      simp only [beq_iff_eq]
      exact fun hh => h1 hh.symm
    rw [insertA, if_neg hne, ih h2]
    rfl

lemma foldl_dict_write_append (l : List (String × TaskView)) :
    ∀ acc : List (String × TaskView),
      (∀ p ∈ l, p.1 ∉ acc.map Prod.fst) → (l.map Prod.fst).Nodup →
      l.foldl dict_write acc = acc ++ l := by
  induction l with
  | nil =>
    intro acc _ _
    simp
  | cons p rest ih =>
    intro acc hdisj hnd
    simp only [List.map_cons, List.nodup_cons] at hnd
    have h1 : dict_write acc p = acc ++ [p] :=
      insertA_of_not_mem acc p.1 p.2 (hdisj p (List.mem_cons_self p rest))
    rw [List.foldl_cons, h1, ih (acc ++ [p]) ?_ hnd.2]
    · simp
    · intro q hq
      simp only [List.map_append, List.mem_append, List.map_cons, List.map_nil,
        List.mem_singleton]
      push_neg
      refine ⟨hdisj q (List.mem_cons_of_mem p hq), ?_⟩
      intro hq1
      exact hnd.1 (hq1 ▸ List.mem_map_of_mem Prod.fst hq)

lemma lookupA_eq_of_mem_nodup {α : Type} (m : List (String × α)) (k : String) (v : α)
    (hnd : (m.map Prod.fst).Nodup) (h : (k, v) ∈ m) : lookupA m k = some v := by
  induction m with
  | nil => simp at h
  | cons p rest ih =>
    simp only [List.map_cons, List.nodup_cons] at hnd
    rcases List.mem_cons.mp h with heq | hmem
    · rw [← heq]
      simp [lookupA]
    · have hne : ¬(p.1 == k) = true := by
        simp only [beq_iff_eq]
        intro hh
        exact hnd.1 (hh ▸ List.mem_map_of_mem Prod.fst hmem)
      have step : lookupA (p :: rest) k = lookupA rest k := by
        simp only [lookupA, List.find?]
        rw [Bool.of_not_eq_true hne]
      rw [step]
      exact ih hnd.2 hmem

/-- Claim C10: `get_all_tasks` lists an entry for every task currently in
`tasks` (pending or running), followed by at most the 100 most recently
finished entries of `completed_tasks` in descending end-time order; completed
results beyond those 100 are omitted from the listing but remain retrievable
through `get_task_result`.  Stated under the scheduler's documented key
invariants: ids are unique within each map and no id is in both maps (ids
are fresh uuids, and `_execute_task` moves an id from `tasks` to
`completed_tasks` under one lock). -/
theorem get_all_tasks_spec (s : SchedulerState)
    (hT : (s.tasks.map Prod.fst).Nodup)
    (hC : (s.completed_tasks.map Prod.fst).Nodup)
    (hdisj : ∀ x ∈ s.tasks.map Prod.fst, x ∉ s.completed_tasks.map Prod.fst) :
    get_all_tasks s =
      s.tasks.map (fun p => (p.1, TaskView.info p.2)) ++
        ((sortCompletedDesc s.completed_tasks).take 100).map
          (fun p => (p.1, TaskView.result p.2)) ∧
    ((sortCompletedDesc s.completed_tasks).take 100).length ≤ 100 ∧
    List.Pairwise (fun a b => completedGe a b = true)
      ((sortCompletedDesc s.completed_tasks).take 100) ∧
    ∀ p ∈ s.completed_tasks, get_task_result s p.1 = some p.2 := by
  have hkeysT : (s.tasks.map (fun p => (p.1, TaskView.info p.2))).map Prod.fst =
      s.tasks.map Prod.fst := by
    rw [List.map_map]
    rfl
  have hbase : (s.tasks.map (fun p => (p.1, TaskView.info p.2))).foldl dict_write [] =
      s.tasks.map (fun p => (p.1, TaskView.info p.2)) := by
    have h := foldl_dict_write_append (s.tasks.map (fun p => (p.1, TaskView.info p.2))) []
      (by simp) (by rw [hkeysT]; exact hT)
    simpa using h
  have hsegmem : ∀ p ∈ (sortCompletedDesc s.completed_tasks).take 100,
      p ∈ s.completed_tasks := by
    intro p hp
    exact (sortCompletedDesc_perm s.completed_tasks).subset
      ((List.take_sublist _ _).subset hp)
  have hkeysC : ((sortCompletedDesc s.completed_tasks).map Prod.fst).Nodup :=
    (((sortCompletedDesc_perm s.completed_tasks).map Prod.fst).symm).nodup hC
  have hndseg : (((sortCompletedDesc s.completed_tasks).take 100).map Prod.fst).Nodup := by
    rw [List.map_take]
    exact List.Nodup.sublist (List.take_sublist _ _) hkeysC
  have hsegdisj : ∀ q ∈ ((sortCompletedDesc s.completed_tasks).take 100).map
        (fun p => (p.1, TaskView.result p.2)),
      q.1 ∉ (s.tasks.map (fun p => (p.1, TaskView.info p.2))).map Prod.fst := by
    intro q hq
    rw [hkeysT]
    rcases List.mem_map.mp hq with ⟨p, hp, rfl⟩
    intro hmem
    exact hdisj p.1 hmem (List.mem_map_of_mem Prod.fst (hsegmem p hp))
  have hndsegM : ((((sortCompletedDesc s.completed_tasks).take 100).map
      (fun p => (p.1, TaskView.result p.2))).map Prod.fst).Nodup := by
    rw [List.map_map]
    exact hndseg
  refine ⟨?_, ?_, ?_, ?_⟩
  · simp only [get_all_tasks]
    rw [hbase, foldl_dict_write_append _ _ hsegdisj hndsegM]
  · rw [List.length_take]
    omega
  · exact List.Pairwise.sublist (List.take_sublist _ _)
      (sortCompletedDesc_pairwise s.completed_tasks)
  · intro p hp
    exact lookupA_eq_of_mem_nodup s.completed_tasks p.1 p.2 hC hp

/-- Witness for C10: one pending task and two completed results. -/
theorem get_all_tasks_spec_witness :
    (exSchedMixed.tasks.map Prod.fst).Nodup ∧
    (get_all_tasks exSchedMixed =
      exSchedMixed.tasks.map (fun p => (p.1, TaskView.info p.2)) ++
        ((sortCompletedDesc exSchedMixed.completed_tasks).take 100).map
          (fun p => (p.1, TaskView.result p.2)) ∧
    ((sortCompletedDesc exSchedMixed.completed_tasks).take 100).length ≤ 100 ∧
    List.Pairwise (fun a b => completedGe a b = true)
      ((sortCompletedDesc exSchedMixed.completed_tasks).take 100) ∧
    ∀ p ∈ exSchedMixed.completed_tasks,
      get_task_result exSchedMixed p.1 = some p.2) :=
  ⟨by decide, get_all_tasks_spec exSchedMixed (by decide) (by decide) (by decide)⟩

end TaskEngine
